import Mathlib

/-
Verification of the FileShare repository's shareable-object lifecycle and
access-control core.

Shallow embedding notes:
* Timestamps (datetime values) are modelled as integer instants (seconds);
  only their total order and addition of offsets matter to the checks.
* Python Optional[T] becomes Option T; Python ints become Int (they are
  unbounded); byte strings handled by the web proxy become List Nat.
* Python truthiness in conditions such as `if db_file.password and ...` is
  modelled faithfully: the empty string and None are falsy.
* Each database statement (one SELECT, or one UPDATE+commit) is atomic;
  a request handler performs several such statements in sequence, and
  concurrent requests interleave between statements (as happens with
  several server processes sharing the database).
-/

namespace FileShare

/-- The five access outcomes of the download policy (spec taxonomy). -/
inductive Decision where
  | NotFound
  | WrongCredential
  | Expired
  | LimitReached
  | Allowed
deriving DecidableEq, Repr

/-- One row of the `files` table (file_service/app/models.py). -/
structure FileRecord where
  filename : String
  stored_name : String
  token : String
  password : Option String
  expires_at : Option Int
  max_downloads : Option Int
  downloads_count : Int
  created_at : Int
  user_id : Option String
deriving DecidableEq, Repr

/-- The PATCH body (file_service/app/schemas.py, class FileUpdate). -/
structure FileUpdate where
  password : Option String := none
  expires_days : Option Int := none
  expires_hours : Option Int := none
  max_downloads : Option Int := none
  remove_password : Bool := false
deriving DecidableEq, Repr

/-- Outcome of the download endpoint: either a file response carrying the
stored name and display filename, or an HTTP error with status and detail. -/
inductive DownloadResult where
  | fileOut (stored_name : String) (filename : String)
  | httpError (status : Nat) (detail : String)
deriving DecidableEq, Repr

/-- utils.is_file_expired: expired iff an expiry is set and now is strictly
after it (`datetime.utcnow() > expires_at`). -/
def is_file_expired (expires_at : Option Int) (now : Int) : Bool :=
  match expires_at with
  | none => false
  | some e => decide (now > e)

/-- utils.is_download_limit_reached: reached iff a limit is set and
`downloads_count >= max_downloads`. -/
def is_download_limit_reached (downloads_count : Int) (max_downloads : Option Int) : Bool :=
  match max_downloads with
  | none => false
  | some m => decide (downloads_count ≥ m)

/-- utils.parse_expires_at: None when both inputs are None, otherwise
now + days*86400 + hours*3600 seconds (`if days:` adds nothing for 0,
numerically the same as adding 0). -/
def parse_expires_at (days hours : Option Int) (now : Int) : Option Int :=
  match days, hours with
  | none, none => none
  | _, _ => some (now + (days.getD 0) * 86400 + (hours.getD 0) * 3600)

/-- The password guard of download_file (files.py line 118):
`if db_file.password and db_file.password != password`.  Python truthiness:
a stored empty string is falsy, so the guard is skipped; otherwise the
stored string is compared to the supplied Optional[str] value (None is
unequal to every string). -/
def password_denied (stored supplied : Option String) : Bool :=
  match stored with
  | none => false
  | some p => decide (p ≠ "") && decide (some p ≠ supplied)

/-- The pure access decision taken by download_file (files.py lines
112-127): existence, then password, then expiry, then download limit. -/
def download_decision (rec : Option FileRecord) (supplied : Option String)
    (now : Int) : Decision :=
  match rec with
  | none => Decision.NotFound
  | some r =>
    if password_denied r.password supplied then Decision.WrongCredential
    else if is_file_expired r.expires_at now then Decision.Expired
    else if is_download_limit_reached r.downloads_count r.max_downloads then
      Decision.LimitReached
    else Decision.Allowed

/-- The full download endpoint (files.py lines 105-144): the check chain,
then the committed increment of downloads_count, then the on-disk existence
check of the backing bytes, then the file response.  Returns the result and
the record state after the request. -/
def download_file (rec : Option FileRecord) (supplied : Option String)
    (now : Int) (bytesPresent : Bool) : DownloadResult × Option FileRecord :=
  match rec with
  | none => (DownloadResult.httpError 404 "File not found", none)
  | some r =>
    if password_denied r.password supplied then
      (DownloadResult.httpError 403 "Invalid password", some r)
    else if is_file_expired r.expires_at now then
      (DownloadResult.httpError 410 "File has expired", some r)
    else if is_download_limit_reached r.downloads_count r.max_downloads then
      (DownloadResult.httpError 410 "Download limit reached", some r)
    else
      let r2 := { r with downloads_count := r.downloads_count + 1 }
      if bytesPresent then
        (DownloadResult.fileOut r2.stored_name r2.filename, some r2)
      else
        (DownloadResult.httpError 404 "File not found on disk", some r2)

/-- HTTP status of a download result, none for a successful file response. -/
def http_status : DownloadResult → Option Nat
  | DownloadResult.fileOut _ _ => none
  | DownloadResult.httpError s _ => some s

/-- The owner gate of update_file (files.py line 188):
`if user_id and db_file.user_id != user_id` (truthiness again: an absent or
empty user_id query parameter disables the gate). -/
def owner_gate_denied (record_user user_id : Option String) : Bool :=
  match user_id with
  | none => false
  | some u => decide (u ≠ "") && decide (record_user ≠ some u)

/-- The patch application of update_file (files.py lines 192-204):
remove_password wins over a supplied password; expiry is recomputed when
either relative input is present; max_downloads is replaced when present;
absent fields are left untouched. -/
def apply_update (r : FileRecord) (u : FileUpdate) (now : Int) : FileRecord :=
  let r1 :=
    if u.remove_password then { r with password := none }
    else
      match u.password with
      | some p => { r with password := some p }
      | none => r
  let r2 :=
    if u.expires_days.isSome || u.expires_hours.isSome then
      { r1 with expires_at := parse_expires_at u.expires_days u.expires_hours now }
    else r1
  match u.max_downloads with
  | some m => { r2 with max_downloads := some m }
  | none => r2

/-- The PATCH endpoint on an existing record (files.py lines 174-207):
owner gate, then the patch application. -/
def update_file (r : FileRecord) (u : FileUpdate) (user_id : Option String)
    (now : Int) : FileRecord :=
  if owner_gate_denied r.user_id user_id then r else apply_update r u now

/-- The record created by the upload endpoint (files.py lines 24-62):
downloads_count defaults to 0 (models.py). -/
def upload_record (filename stored_name token : String)
    (password : Option String) (expires_days expires_hours : Option Int)
    (max_downloads : Option Int) (user_id : Option String) (now : Int) :
    FileRecord :=
  { filename := filename, stored_name := stored_name, token := token,
    password := password,
    expires_at := parse_expires_at expires_days expires_hours now,
    max_downloads := max_downloads, downloads_count := 0,
    created_at := now, user_id := user_id }

/-- The ownership transfer endpoint (files.py lines 227-243): every record
whose user_id equals the old id is rewritten to the new id, and the number
of rewritten records is returned. -/
def transfer_files (files : List FileRecord) (old_user_id new_user_id : String) :
    List FileRecord × Nat :=
  (files.map (fun f =>
      if f.user_id = some old_user_id then { f with user_id := some new_user_id }
      else f),
   files.countP (fun f => decide (f.user_id = some old_user_id)))

/-- Operations that mutate a single existing record. -/
inductive Op where
  | download (supplied : Option String) (now : Int) (bytesPresent : Bool)
  | update (u : FileUpdate) (user_id : Option String) (now : Int)
deriving DecidableEq, Repr

/-- State transition of one record under one operation. -/
def apply_op (r : FileRecord) : Op → FileRecord
  | Op.download s now b =>
    match download_file (some r) s now b with
    | (_, some r2) => r2
    | (_, none) => r
  | Op.update u uid now => update_file r u uid now

/-- State after a sequence of operations. -/
def apply_ops (r : FileRecord) (ops : List Op) : FileRecord :=
  ops.foldl apply_op r

/-! ### Concurrency model for the download counter

One download request performs two atomic database steps (files.py):
the SELECT of the record (line 112), on whose snapshot all checks and the
Python increment are computed, and the UPDATE issued by the commit
(line 131), which writes snapshot + 1.  Between the two steps other
requests may run their own steps, as happens with several server
processes sharing one database. -/

/-- Progress of one in-flight download request: not yet read; read a
snapshot, passed the checks, increment not yet committed; finished with a
decision. -/
inductive Phase where
  | start
  | pending (snapshot : Int)
  | done (d : Decision)
deriving DecidableEq, Repr

/-- Shared state: the committed downloads_count and each request's phase.
The policy fields of the record do not change during the experiment. -/
structure ConcState where
  count : Int
  threads : List Phase
deriving DecidableEq, Repr

/-- One atomic step of one request against base record r0: the read step
evaluates the full check chain on the current committed count, the write
step commits snapshot + 1. -/
def thread_step (r0 : FileRecord) (supplied : Option String) (now : Int)
    (count : Int) : Phase → Phase × Int
  | Phase.start =>
    let d := download_decision (some { r0 with downloads_count := count }) supplied now
    if d = Decision.Allowed then (Phase.pending count, count)
    else (Phase.done d, count)
  | Phase.pending c => (Phase.done Decision.Allowed, c + 1)
  | Phase.done d => (Phase.done d, count)

/-- Schedule request i for its next atomic step. -/
def sched_step (r0 : FileRecord) (supplied : Option String) (now : Int)
    (s : ConcState) (i : Nat) : ConcState :=
  match s.threads.get? i with
  | none => s
  | some ph =>
    let pc := thread_step r0 supplied now s.count ph
    { count := pc.2, threads := s.threads.set i pc.1 }

/-- Run a whole interleaving, given as the list of scheduled thread ids. -/
def run_sched (r0 : FileRecord) (supplied : Option String) (now : Int)
    (s : ConcState) : List Nat → ConcState
  | [] => s
  | i :: rest => run_sched r0 supplied now (sched_step r0 supplied now s i) rest

/-- Fully serialized downloads: each request's read-check-increment
completes before the next request starts (backing bytes present). -/
def run_downloads (supplied : Option String) (now : Int) :
    Nat → FileRecord → List Decision × FileRecord
  | 0, r => ([], r)
  | k + 1, r =>
    let d := download_decision (some r) supplied now
    let r2 := ((download_file (some r) supplied now true).2).getD r
    let rest := run_downloads supplied now k r2
    (d :: rest.1, rest.2)

/-! ### Download Proxy header construction

web_service/app/routes/pages.py, download_file, lines 172-218.  The
display name arrives as a Python str; the construction below works on its
UTF-8 byte sequence, modelled as List Nat.  Stripping the codepoints
>= 128 from the str (encode ascii ignore) equals stripping the bytes
>= 128 from its UTF-8 encoding, because every byte of a multi-byte UTF-8
sequence is >= 128. -/

/-- Character codes of an ASCII Lean string literal. -/
def codes (s : String) : List Nat :=
  s.toList.map Char.toNat

/-- filename.encode ascii ignore: drop everything non-ASCII. -/
def ascii_ignore (name : List Nat) : List Nat :=
  name.filter (fun b => decide (b < 128))

/-- ASCII whitespace removed by Python str.strip (the sanitized name is
pure ASCII at this point). -/
def py_isspace (b : Nat) : Bool :=
  b = 32 || b = 9 || b = 10 || b = 11 || b = 12 || b = 13

/-- pages.py lines 174-178: the ASCII fallback name; the placeholder
file replaces an empty or whitespace-only result. -/
def safe_filename (name : List Nat) : List Nat :=
  let s := ascii_ignore name
  if s.isEmpty || s.all py_isspace then codes "file" else s

/-- Uppercase hex digit of a value below 16 (f-string 02X format). -/
def hex_digit (n : Nat) : Nat :=
  if n < 10 then 48 + n else 55 + n

/-- Value of an uppercase hex digit character. -/
def hex_val (c : Nat) : Nat :=
  if 48 ≤ c ∧ c ≤ 57 then c - 48
  else if 65 ≤ c ∧ c ≤ 70 then c - 55
  else 0

/-- pages.py lines 184-190: a byte is kept literal when printable ASCII
other than the quote, percent, apostrophe and backslash characters;
every other byte becomes percent-hex with uppercase digits. -/
def enc_byte (b : Nat) : List Nat :=
  if 32 ≤ b ∧ b ≤ 126 ∧ b ≠ 34 ∧ b ≠ 37 ∧ b ≠ 39 ∧ b ≠ 92 then [b]
  else [37, hex_digit (b / 16), hex_digit (b % 16)]

/-- pages.py line 191: the percent-encoded form of the UTF-8 bytes. -/
def encoded_filename (name : List Nat) : List Nat :=
  (name.map enc_byte).flatten

/-- The header value holding only the ASCII fallback:
attachment; filename="safe". -/
def fallback_form (name : List Nat) : List Nat :=
  codes "attachment; filename=\"" ++ safe_filename name ++ [34]

/-- The extended header value additionally carrying the exact original
name (34 is the quote, 39 the apostrophe):
attachment; filename="safe"; filename*=UTF-8 quote-quote encoded. -/
def extended_form (name : List Nat) : List Nat :=
  codes "attachment; filename=\"" ++ safe_filename name ++
    codes "\"; filename*=UTF-8" ++ [39, 39] ++ encoded_filename name

/-- pages.py lines 195-201: the extended form is used when the encoded
part is pure ASCII, else only the fallback. -/
def composed_disposition (name : List Nat) : List Nat :=
  if (encoded_filename name).all (fun b => decide (b < 128)) then
    extended_form name
  else fallback_form name

/-- pages.py lines 212-218: the composed value is emitted when it encodes
in Latin-1 (every code below 256), else the fallback alone. -/
def emitted_disposition (name : List Nat) : List Nat :=
  if (composed_disposition name).all (fun b => decide (b < 256)) then
    composed_disposition name
  else fallback_form name

/-- Inverse of the percent-encoding: a percent character introduces two
hex digits, any other character stands for itself. -/
def percent_decode : List Nat → List Nat
  | [] => []
  | c :: rest =>
    if c = 37 then
      match rest with
      | h1 :: h2 :: rest2 => (16 * hex_val h1 + hex_val h2) :: percent_decode rest2
      | _ => []
    else c :: percent_decode rest

/-- A concrete record used to instantiate hypotheses of theorems:
no password, no expiry, no limit, fresh counter. -/
def sample_record : FileRecord :=
  { filename := "a.txt", stored_name := "s1", token := "tok",
    password := none, expires_at := none, max_downloads := none,
    downloads_count := 0, created_at := 0, user_id := none }

/-! ### Helper lemmas -/

lemma apply_update_downloads_count (r : FileRecord) (u : FileUpdate) (now : Int) :
    (apply_update r u now).downloads_count = r.downloads_count := by
  rcases u with ⟨pw, ed, eh, md, rp⟩
  unfold apply_update
  cases rp <;> cases pw <;> cases md <;> dsimp <;> split <;> rfl

lemma update_file_downloads_count (r : FileRecord) (u : FileUpdate)
    (uid : Option String) (now : Int) :
    (update_file r u uid now).downloads_count = r.downloads_count := by
  unfold update_file
  split
  · rfl
  · exact apply_update_downloads_count r u now

lemma apply_op_downloads_count_mono (r : FileRecord) (op : Op) :
    r.downloads_count ≤ (apply_op r op).downloads_count := by
  cases op with
  | download s now b =>
    simp only [apply_op, download_file]
    split_ifs <;> cases b <;> simp
  | update u uid now =>
    simp only [apply_op]
    rw [update_file_downloads_count]

lemma download_op_bound (r : FileRecord) (s : Option String) (now : Int)
    (b : Bool) (m : Int) (hm : r.max_downloads = some m)
    (hc : r.downloads_count ≤ m) :
    (apply_op r (Op.download s now b)).max_downloads = some m ∧
    (apply_op r (Op.download s now b)).downloads_count ≤ m := by
  simp only [apply_op, download_file]
  split_ifs with h1 h2 h3 h4
  · exact ⟨hm, hc⟩
  · exact ⟨hm, hc⟩
  · exact ⟨hm, hc⟩
  · have hlt : r.downloads_count < m := by
      rw [hm] at h3
      unfold is_download_limit_reached at h3
      simp at h3
      omega
    exact ⟨hm, by simp; omega⟩
  · have hlt : r.downloads_count < m := by
      rw [hm] at h3
      unfold is_download_limit_reached at h3
      simp at h3
      omega
    exact ⟨hm, by simp; omega⟩

/-! ### Claim theorems -/

/-- Claim C2: the download access decision is evaluated in the fixed
short-circuiting order: record existence (else NotFound), then credential
(else WrongCredential), then expiry (else Expired), then download limit
(else LimitReached), otherwise Allowed.  Each denial is insensitive to the
fields only later checks would consult, so no later check is reached once
an earlier one denies. -/
theorem c2_download_order (s : Option String) (now : Int) (r : FileRecord) :
    download_decision none s now = Decision.NotFound ∧
    (password_denied r.password s = true →
      ∀ (e m : Option Int) (c : Int),
        download_decision
          (some { r with expires_at := e, max_downloads := m, downloads_count := c })
          s now = Decision.WrongCredential) ∧
    (password_denied r.password s = false → is_file_expired r.expires_at now = true →
      ∀ (m : Option Int) (c : Int),
        download_decision (some { r with max_downloads := m, downloads_count := c })
          s now = Decision.Expired) ∧
    (password_denied r.password s = false → is_file_expired r.expires_at now = false →
      is_download_limit_reached r.downloads_count r.max_downloads = true →
      download_decision (some r) s now = Decision.LimitReached) ∧
    (password_denied r.password s = false → is_file_expired r.expires_at now = false →
      is_download_limit_reached r.downloads_count r.max_downloads = false →
      download_decision (some r) s now = Decision.Allowed) := by
  refine ⟨rfl, ?_, ?_, ?_, ?_⟩ <;> intros <;> simp [download_decision, *]

/-- Witness for C2: with a wrong credential the decision is
WrongCredential even though the limit is exhausted; with nothing set the
decision is Allowed. -/
theorem c2_download_order_witness :
    download_decision
      (some { sample_record with
        password := some "x", expires_at := none,
        max_downloads := some 0, downloads_count := 5 }) none 0 =
      Decision.WrongCredential ∧
    download_decision (some sample_record) none 0 = Decision.Allowed := by
  constructor
  · exact (c2_download_order none 0 { sample_record with password := some "x" }).2.1
      (by decide) none (some 0) 5
  · exact (c2_download_order none 0 sample_record).2.2.2.2 rfl rfl rfl

/-- Claim C4 (counterexample): a record whose stored credential is the
empty string is "a record whose credential is set", yet a download that
supplies no credential at all is Allowed, not denied with
WrongCredential — the guard `if db_file.password and ...` treats the empty
string as falsy and skips the comparison. -/
theorem c4_counterexample :
    download_decision (some { sample_record with password := some "" }) none 0 =
      Decision.Allowed ∧
    Decision.Allowed ≠ Decision.WrongCredential := by
  decide

/-- Claim C4 (amended): for a record whose stored credential is a
non-empty string, the download passes the credential check iff the
supplied credential equals the stored one exactly (supplying nothing
fails); a record whose stored credential is the empty string behaves
exactly as if no credential were set; a record with no credential is
never denied with WrongCredential. -/
theorem c4_amended (r : FileRecord) (s : Option String) (now : Int) :
    (∀ p, r.password = some p → p ≠ "" →
      (download_decision (some r) s now = Decision.WrongCredential ↔ s ≠ some p)) ∧
    (r.password = some "" →
      download_decision (some r) s now =
        download_decision (some { r with password := none }) s now) ∧
    (r.password = none → download_decision (some r) s now ≠ Decision.WrongCredential) := by
  refine ⟨?_, ?_, ?_⟩
  · intro p hp hne
    rcases Decidable.em (s = some p) with he | he
    · subst he
      simp [download_decision, password_denied, hp]
      split_ifs <;> simp
    · have he2 : some p ≠ s := fun h => he h.symm
      have hg : password_denied r.password s = true := by
        simp [password_denied, hp, hne, he2]
      simp [download_decision, hg, he]
  · intro hp
    simp [download_decision, password_denied, hp]
  · intro hp
    simp [download_decision, password_denied, hp]
    split_ifs <;> simp

/-- Witness for C4 (amended): on a record with credential x, supplying
nothing is denied with WrongCredential. -/
theorem c4_amended_witness :
    download_decision (some { sample_record with password := some "x" }) none 0 =
      Decision.WrongCredential ↔ (none : Option String) ≠ some "x" := by
  exact (c4_amended { sample_record with password := some "x" } none 0).1 "x" rfl
    (by decide)

/-- Claim C5: a record with no expiry never yields Expired; with an expiry
set (and the credential check passing) the download is denied with Expired
iff now is strictly after the expiry; at the boundary instant itself the
decision is never Expired, and one instant later it is. -/
theorem c5_expiry (r : FileRecord) (s : Option String) (now : Int) :
    (r.expires_at = none → download_decision (some r) s now ≠ Decision.Expired) ∧
    (∀ e, r.expires_at = some e → password_denied r.password s = false →
      (download_decision (some r) s now = Decision.Expired ↔ now > e)) ∧
    (r.expires_at = some now → download_decision (some r) s now ≠ Decision.Expired) ∧
    (r.expires_at = some now → password_denied r.password s = false →
      download_decision (some r) s (now + 1) = Decision.Expired) := by
  refine ⟨?_, ?_, ?_, ?_⟩
  · intro he
    simp [download_decision, is_file_expired, he]
    split_ifs <;> simp
  · intro e he hpw
    constructor
    · intro hEq
      by_contra hgt
      have hfe : is_file_expired r.expires_at now = false := by
        simp [is_file_expired, he]
        omega
      simp [download_decision, hpw, hfe] at hEq
      split_ifs at hEq
    · intro hgt
      have hfe : is_file_expired r.expires_at now = true := by
        simp [is_file_expired, he]
        omega
      simp [download_decision, hpw, hfe]
  · intro he
    simp [download_decision, is_file_expired, he]
    split_ifs <;> simp
  · intro he hpw
    simp [download_decision, is_file_expired, he, hpw]

/-- Witness for C5: expiry at instant 5 still allows the download at 5
and denies it with Expired at 6. -/
theorem c5_expiry_witness :
    download_decision (some { sample_record with expires_at := some 5 }) none 5 ≠
      Decision.Expired ∧
    download_decision (some { sample_record with expires_at := some 5 }) none 6 =
      Decision.Expired := by
  constructor
  · exact (c5_expiry { sample_record with expires_at := some 5 } none 5).2.2.1 rfl
  · exact (c5_expiry { sample_record with expires_at := some 5 } none 5).2.2.2 rfl rfl

/-- Claim C6: in a policy patch, the remove-credential flag clears the
stored credential even when a new credential value is supplied
simultaneously (remove wins over set); each of credential, expiry and
download limit is independently optional and absent fields are left
untouched (and the patch never touches the counter or the owner). -/
theorem c6_update_semantics (r : FileRecord) (u : FileUpdate) (now : Int) :
    (u.remove_password = true → (apply_update r u now).password = none) ∧
    (u.remove_password = false → u.password = none →
      (apply_update r u now).password = r.password) ∧
    (∀ p, u.remove_password = false → u.password = some p →
      (apply_update r u now).password = some p) ∧
    (u.expires_days = none → u.expires_hours = none →
      (apply_update r u now).expires_at = r.expires_at) ∧
    (u.max_downloads = none →
      (apply_update r u now).max_downloads = r.max_downloads) ∧
    (apply_update r u now).downloads_count = r.downloads_count ∧
    (apply_update r u now).user_id = r.user_id := by
  rcases u with ⟨pw, ed, eh, md, rp⟩
  refine ⟨?_, ?_, ?_, ?_, ?_, ?_, ?_⟩
  · intro h
    subst h
    cases md <;> simp [apply_update] <;> first | rfl | (split <;> rfl)
  · intro h hpw
    subst h
    subst hpw
    cases md <;> simp [apply_update] <;> first | rfl | (split <;> rfl)
  · intro p h hpw
    subst h
    subst hpw
    cases md <;> simp [apply_update] <;> first | rfl | (split <;> rfl)
  · intro hd hh
    subst hd
    subst hh
    cases rp <;> cases pw <;> cases md <;> simp [apply_update]
  · intro h
    subst h
    cases rp <;> cases pw <;> simp [apply_update] <;> first | rfl | (split <;> rfl)
  · exact apply_update_downloads_count _ _ _
  · cases rp <;> cases pw <;> cases md <;> simp [apply_update] <;>
      first | rfl | (split <;> rfl)

/-- Witness for C6: remove_password together with a supplied new
credential clears the credential. -/
theorem c6_update_semantics_witness :
    (apply_update { sample_record with password := some "old" }
      { password := some "new", remove_password := true } 0).password = none := by
  exact (c6_update_semantics { sample_record with password := some "old" }
    { password := some "new", remove_password := true } 0).1 rfl

/-- Claim C8 (counterexample): the failure for an existing record whose
backing bytes are missing carries HTTP status 404 — exactly the status of
the NotFound failure for an unknown token, so at the level of the error
taxonomy (status codes, which is all the browser-facing proxy inspects)
the two are not distinguishable. -/
theorem c8_counterexample :
    http_status (download_file (some sample_record) none 0 false).1 =
      http_status (download_file none none 0 true).1 ∧
    http_status (download_file none none 0 true).1 = some 404 := by
  decide

/-- Claim C8 (amended): a download of an existing record whose bytes are
missing fails with the same 404 status as an unknown token; the two
responses differ only in the human-readable detail string (File not found
on disk versus File not found). -/
theorem c8_amended (r : FileRecord) (s : Option String) (now : Int) (b : Bool) :
    password_denied r.password s = false →
    is_file_expired r.expires_at now = false →
    is_download_limit_reached r.downloads_count r.max_downloads = false →
    (download_file none s now b).1 = DownloadResult.httpError 404 "File not found" ∧
    (download_file (some r) s now false).1 =
      DownloadResult.httpError 404 "File not found on disk" ∧
    DownloadResult.httpError 404 "File not found on disk" ≠
      DownloadResult.httpError 404 "File not found" := by
  intro h1 h2 h3
  refine ⟨rfl, ?_, by decide⟩
  simp [download_file, h1, h2, h3]

/-- Witness for C8 (amended), on a fresh unrestricted record. -/
theorem c8_amended_witness :
    (download_file none none 0 true).1 = DownloadResult.httpError 404 "File not found" ∧
    (download_file (some sample_record) none 0 false).1 =
      DownloadResult.httpError 404 "File not found on disk" ∧
    DownloadResult.httpError 404 "File not found on disk" ≠
      DownloadResult.httpError 404 "File not found" := by
  exact c8_amended sample_record none 0 true rfl rfl rfl

lemma run_downloads_limit (s : Option String) (now : Int) :
    ∀ (k : Nat) (r : FileRecord) (m : Int),
    password_denied r.password s = false →
    is_file_expired r.expires_at now = false →
    r.max_downloads = some m → m ≤ r.downloads_count →
    run_downloads s now k r = (List.replicate k Decision.LimitReached, r) := by
  intro k
  induction k with
  | zero =>
    intro r m h1 h2 h3 h4
    simp [run_downloads]
  | succ k ih =>
    intro r m h1 h2 h3 h4
    have hlim : is_download_limit_reached r.downloads_count r.max_downloads = true := by
      rw [h3]
      simp [is_download_limit_reached]
      omega
    have hd : download_decision (some r) s now = Decision.LimitReached := by
      simp [download_decision, h1, h2, hlim]
    have hdf : (download_file (some r) s now true).2 = some r := by
      simp [download_file, h1, h2, hlim]
    simp [run_downloads, hd, hdf, ih r m h1 h2 h3 h4, List.replicate_succ]

lemma run_downloads_split (s : Option String) (now : Int) :
    ∀ (j k : Nat) (r : FileRecord) (m : Int),
    password_denied r.password s = false →
    is_file_expired r.expires_at now = false →
    r.max_downloads = some m → r.downloads_count + (j : Int) = m →
    run_downloads s now (j + k) r =
      (List.replicate j Decision.Allowed ++ List.replicate k Decision.LimitReached,
       { r with downloads_count := m }) := by
  intro j
  induction j with
  | zero =>
    intro k r m h1 h2 h3 h4
    have hm : m = r.downloads_count := by omega
    subst hm
    rw [Nat.zero_add,
      run_downloads_limit s now k r r.downloads_count h1 h2 h3 (le_refl _)]
    rfl
  | succ j ih =>
    intro k r m h1 h2 h3 h4
    have hlt : r.downloads_count < m := by
      push_cast at h4
      omega
    have hlim : is_download_limit_reached r.downloads_count r.max_downloads = false := by
      rw [h3]
      simp [is_download_limit_reached]
      omega
    have hd : download_decision (some r) s now = Decision.Allowed := by
      simp [download_decision, h1, h2, hlim]
    have hdf : (download_file (some r) s now true).2 =
        some { r with downloads_count := r.downloads_count + 1 } := by
      simp [download_file, h1, h2, hlim]
    have hih := ih k { r with downloads_count := r.downloads_count + 1 } m h1 h2 h3
      (by push_cast at h4 ⊢; omega)
    rw [show j + 1 + k = (j + k) + 1 from by omega]
    simp [run_downloads, hd, hdf, hih, List.replicate_succ]

/-- Claim C1 (counterexample): the code's download counter update is a
committed read-modify-write, not an atomic conditional increment.  With
download_limit = 1 and the two-request interleaving read-read-write-write
(schedule 0,1,0,1), both of the 2N = 2 concurrent attempts obtain Allowed,
so the number of Allowed outcomes is 2, not bounded by N = 1, and the
exact N/N split does not hold. -/
theorem c1_counterexample :
    (run_sched { sample_record with max_downloads := some 1 } none 0
        { count := 0, threads := [Phase.start, Phase.start] } [0, 1, 0, 1]).threads =
      [Phase.done Decision.Allowed, Phase.done Decision.Allowed] ∧
    ¬((List.countP (fun p => decide (p = Phase.done Decision.Allowed))
        (run_sched { sample_record with max_downloads := some 1 } none 0
          { count := 0, threads := [Phase.start, Phase.start] } [0, 1, 0, 1]).threads) ≤ 1) := by
  decide

/-- Claim C1 (amended): when the 2N download requests are serialized —
each request's read-check-increment completing before the next begins —
a record with download_limit = N, a passing credential and no expiry
yields exactly N Allowed outcomes followed by N LimitReached outcomes,
and the final counter is N.  Under interleaved concurrent execution the
code's non-atomic increment admits more than N Allowed outcomes. -/
theorem c1_serialized (N : Nat) (r : FileRecord) (s : Option String) (now : Int) :
    password_denied r.password s = false →
    is_file_expired r.expires_at now = false →
    r.max_downloads = some (N : Int) →
    r.downloads_count = 0 →
    run_downloads s now (N + N) r =
      (List.replicate N Decision.Allowed ++ List.replicate N Decision.LimitReached,
       { r with downloads_count := (N : Int) }) := by
  intro h1 h2 h3 h4
  exact run_downloads_split s now N N r (N : Int) h1 h2 h3 (by rw [h4]; simp)

/-- Witness for C1 (amended): limit 1, two serialized requests: one
Allowed, then one LimitReached. -/
theorem c1_serialized_witness :
    run_downloads none 0 2 { sample_record with max_downloads := some 1 } =
      (List.replicate 1 Decision.Allowed ++ List.replicate 1 Decision.LimitReached,
       { { sample_record with max_downloads := some 1 } with
         downloads_count := ((1 : Nat) : Int) }) := by
  exact c1_serialized 1 { sample_record with max_downloads := some 1 } none 0
    rfl rfl rfl rfl

/-- Claim C3 (counterexample): the invariant that downloads_count never
exceeds download_limit fails in a reachable state: a record uploaded with
no limit is downloaded twice (count 2) and then a policy update sets
max_downloads to 1, leaving a committed state with count 2 > limit 1. -/
theorem c3_counterexample :
    (apply_ops sample_record
      [Op.download none 0 true, Op.download none 0 true,
       Op.update { max_downloads := some 1 } none 0]).max_downloads = some 1 ∧
    (apply_ops sample_record
      [Op.download none 0 true, Op.download none 0 true,
       Op.update { max_downloads := some 1 } none 0]).downloads_count = 2 ∧
    ¬((apply_ops sample_record
      [Op.download none 0 true, Op.download none 0 true,
       Op.update { max_downloads := some 1 } none 0]).downloads_count ≤ 1) := by
  decide

/-- Claim C3 (amended): the counter starts at 0 and is monotonically
non-decreasing; a record with no limit is never denied with LimitReached;
a download attempt that passes the earlier checks is denied with
LimitReached whenever the limit is set and count has reached it; and the
count never exceeds the limit in any state reached by downloads alone —
the bound can only be broken by a policy update that lowers the limit
below the current count. -/
theorem c3_limit_invariants :
    (∀ fn sn tk pw ed eh md uid now,
      (upload_record fn sn tk pw ed eh md uid now).downloads_count = 0) ∧
    (∀ (r : FileRecord) (op : Op),
      r.downloads_count ≤ (apply_op r op).downloads_count) ∧
    (∀ (r : FileRecord) (s : Option String) (now : Int), r.max_downloads = none →
      download_decision (some r) s now ≠ Decision.LimitReached) ∧
    (∀ (r : FileRecord) (s : Option String) (now : Int) (m : Int),
      password_denied r.password s = false →
      is_file_expired r.expires_at now = false →
      r.max_downloads = some m → m ≤ r.downloads_count →
      download_decision (some r) s now = Decision.LimitReached) ∧
    (∀ (r : FileRecord) (m : Int) (ops : List Op),
      (∀ op ∈ ops, ∃ s now b, op = Op.download s now b) →
      r.max_downloads = some m → r.downloads_count ≤ m →
      (apply_ops r ops).downloads_count ≤ m) := by
  refine ⟨?_, ?_, ?_, ?_, ?_⟩
  · intros
    rfl
  · exact apply_op_downloads_count_mono
  · intro r s now h
    simp [download_decision, is_download_limit_reached, h]
    split_ifs <;> simp
  · intro r s now m h1 h2 h3 h4
    have hlim : is_download_limit_reached r.downloads_count r.max_downloads = true := by
      rw [h3]
      simp [is_download_limit_reached]
      omega
    simp [download_decision, h1, h2, hlim]
  · intro r m ops
    induction ops generalizing r with
    | nil =>
      intro _ _ hc
      simpa [apply_ops] using hc
    | cons op rest ih =>
      intro hall hm hc
      obtain ⟨s, now, b, rfl⟩ := hall _ (List.mem_cons_self _ _)
      have hb := download_op_bound r s now b m hm hc
      have : apply_ops r (Op.download s now b :: rest) =
          apply_ops (apply_op r (Op.download s now b)) rest := by
        simp [apply_ops]
      rw [this]
      exact ih _ (fun o ho => hall o (List.mem_cons_of_mem _ ho)) hb.1 hb.2

/-- Witness for C3 (amended): a record at its limit of 1 is denied with
LimitReached. -/
theorem c3_limit_invariants_witness :
    download_decision
      (some { sample_record with max_downloads := some 1, downloads_count := 1 })
      none 0 = Decision.LimitReached := by
  exact c3_limit_invariants.2.2.2.1
    { sample_record with max_downloads := some 1, downloads_count := 1 }
    none 0 1 rfl rfl rfl (by decide)

/-- Claim C7 (counterexample): for the pair of equal owner identities
(old = new = a), transfer is not idempotent: a record owned by a is
counted again by the second call, which reports 1, not 0. -/
theorem c7_counterexample :
    (transfer_files
      (transfer_files [{ sample_record with user_id := some "a" }] "a" "a").1
      "a" "a").2 = 1 ∧ (1 : Nat) ≠ 0 := by
  decide

/-- Claim C7 (amended): for distinct owner identities, transfer rewrites
owner_id to the new identity on every record owned by the old one and
returns the number rewritten; no record owned by the old identity
remains, so a second call returns zero; and when the old identity never
owned anything the call succeeds with zero. -/
theorem c7_transfer (files : List FileRecord) (old_id new_id : String) :
    old_id ≠ new_id →
    (transfer_files files old_id new_id).2 =
      files.countP (fun f => decide (f.user_id = some old_id)) ∧
    (∀ f, f ∈ files → f.user_id = some old_id →
      ({ f with user_id := some new_id } : FileRecord) ∈
        (transfer_files files old_id new_id).1) ∧
    (∀ f, f ∈ (transfer_files files old_id new_id).1 →
      f.user_id ≠ some old_id) ∧
    (transfer_files (transfer_files files old_id new_id).1 old_id new_id).2 = 0 ∧
    (files.countP (fun f => decide (f.user_id = some old_id)) = 0 →
      (transfer_files files old_id new_id).2 = 0) := by
  intro hne
  have hnot : ∀ f, f ∈ (transfer_files files old_id new_id).1 →
      f.user_id ≠ some old_id := by
    intro f hf
    simp only [transfer_files, List.mem_map] at hf
    obtain ⟨a, ha, rfl⟩ := hf
    by_cases h : a.user_id = some old_id
    · rw [if_pos h]
      intro hcon
      simp at hcon
      exact hne hcon.symm
    · rw [if_neg h]
      exact h
  refine ⟨rfl, ?_, hnot, ?_, ?_⟩
  · intro f hf hid
    simp only [transfer_files, List.mem_map]
    exact ⟨f, hf, by rw [if_pos hid]⟩
  · have hz : List.countP (fun f => decide (f.user_id = some old_id))
        (transfer_files files old_id new_id).1 = 0 :=
      List.countP_eq_zero.mpr (fun f hf => by simpa using hnot f hf)
    simpa [transfer_files] using hz
  · intro h
    simpa [transfer_files] using h

/-- Witness for C7 (amended): transferring the single record of owner a
to owner b rewrites it, and a second transfer reports zero. -/
theorem c7_transfer_witness :
    ({ sample_record with user_id := some "b" } : FileRecord) ∈
      (transfer_files [{ sample_record with user_id := some "a" }] "a" "b").1 ∧
    (transfer_files
      (transfer_files [{ sample_record with user_id := some "a" }] "a" "b").1
      "a" "b").2 = 0 := by
  have h := c7_transfer [{ sample_record with user_id := some "a" }] "a" "b"
    (by decide)
  exact ⟨h.2.1 { sample_record with user_id := some "a" } (by simp) rfl,
    h.2.2.2.1⟩

/-- Claim C10: when a download passes the existence, credential, expiry
and limit checks but the backing bytes are missing, the request fails with
the on-disk 404, yet the committed record state has already consumed one
unit of the limit: the counter is incremented and the state is not the
pre-request state. -/
theorem c10_miss_consumes (r : FileRecord) (s : Option String) (now : Int) :
    password_denied r.password s = false →
    is_file_expired r.expires_at now = false →
    is_download_limit_reached r.downloads_count r.max_downloads = false →
    download_file (some r) s now false =
      (DownloadResult.httpError 404 "File not found on disk",
       some { r with downloads_count := r.downloads_count + 1 }) ∧
    ({ r with downloads_count := r.downloads_count + 1 } : FileRecord) ≠ r := by
  intro h1 h2 h3
  constructor
  · simp [download_file, h1, h2, h3]
  · intro h
    have hc := congrArg FileRecord.downloads_count h
    simp at hc

/-- Witness for C10: a failed bytes-missing download on a fresh record
leaves the counter at 1. -/
theorem c10_miss_consumes_witness :
    download_file (some sample_record) none 0 false =
      (DownloadResult.httpError 404 "File not found on disk",
       some { sample_record with downloads_count := sample_record.downloads_count + 1 }) ∧
    ({ sample_record with downloads_count := sample_record.downloads_count + 1 } :
      FileRecord) ≠ sample_record := by
  exact c10_miss_consumes sample_record none 0 rfl rfl rfl

lemma hex_val_hex_digit (n : Nat) (h : n < 16) : hex_val (hex_digit n) = n := by
  unfold hex_val hex_digit
  split_ifs <;> omega

lemma hex_digit_lt (n : Nat) (h : n < 16) : hex_digit n < 128 := by
  unfold hex_digit
  split_ifs <;> omega

lemma enc_byte_ascii (b : Nat) (hb : b < 256) : ∀ c ∈ enc_byte b, c < 128 := by
  intro c hc
  unfold enc_byte at hc
  split_ifs at hc with h
  · simp at hc
    omega
  · have d1 : b / 16 < 16 := by omega
    have d2 : b % 16 < 16 := by omega
    simp at hc
    rcases hc with h | h | h
    · omega
    · subst h
      exact hex_digit_lt _ d1
    · subst h
      exact hex_digit_lt _ d2

lemma percent_decode_cons_ne (b : Nat) (h : b ≠ 37) (E : List Nat) :
    percent_decode (b :: E) = b :: percent_decode E := by
  cases E with
  | nil => simp [percent_decode, h]
  | cons x rest =>
    cases rest with
    | nil => simp [percent_decode, h]
    | cons y rest2 => simp [percent_decode, h]

lemma percent_decode_pct (x y : Nat) (E : List Nat) :
    percent_decode (37 :: x :: y :: E) =
      (16 * hex_val x + hex_val y) :: percent_decode E := by
  simp [percent_decode]

lemma percent_decode_enc (b : Nat) (hb : b < 256) (E : List Nat) :
    percent_decode (enc_byte b ++ E) = b :: percent_decode E := by
  unfold enc_byte
  split_ifs with h
  · show percent_decode (b :: E) = b :: percent_decode E
    exact percent_decode_cons_ne b h.2.2.2.1 E
  · show percent_decode (37 :: hex_digit (b / 16) :: hex_digit (b % 16) :: E) =
      b :: percent_decode E
    rw [percent_decode_pct]
    have d1 : b / 16 < 16 := by omega
    have d2 : b % 16 < 16 := by omega
    rw [hex_val_hex_digit _ d1, hex_val_hex_digit _ d2]
    congr 1
    omega

lemma percent_decode_encoded (name : List Nat) (h : ∀ b ∈ name, b < 256) :
    percent_decode (encoded_filename name) = name := by
  induction name with
  | nil => rfl
  | cons b rest ih =>
    have hb : b < 256 := h b (List.mem_cons_self _ _)
    have hrest : ∀ x ∈ rest, x < 256 := fun x hx => h x (List.mem_cons_of_mem _ hx)
    simp only [encoded_filename, List.map_cons, List.flatten_cons]
    rw [percent_decode_enc b hb]
    simp only [encoded_filename] at ih
    rw [ih hrest]

lemma encoded_ascii (name : List Nat) (h : ∀ b ∈ name, b < 256) :
    ∀ c ∈ encoded_filename name, c < 128 := by
  intro c hc
  simp only [encoded_filename, List.mem_flatten, List.mem_map] at hc
  obtain ⟨l, ⟨b, hb, rfl⟩, hcl⟩ := hc
  exact enc_byte_ascii b (h b hb) c hcl

lemma safe_filename_ascii (name : List Nat) :
    ∀ c ∈ safe_filename name, c < 128 := by
  intro c hc
  simp only [safe_filename] at hc
  split_ifs at hc
  · rw [show codes "file" = [102, 105, 108, 101] from by decide] at hc
    simp at hc
    rcases hc with h | h | h | h <;> omega
  · simp only [ascii_ignore, List.mem_filter] at hc
    simpa using hc.2

lemma safe_filename_ne_nil (name : List Nat) : safe_filename name ≠ [] := by
  simp only [safe_filename]
  split_ifs with h
  · decide
  · intro hnil
    rw [hnil] at h
    simp at h

lemma extended_form_ascii (name : List Nat) (h : ∀ b ∈ name, b < 256) :
    ∀ c ∈ extended_form name, c < 128 := by
  intro c hc
  unfold extended_form at hc
  simp only [List.mem_append] at hc
  rcases hc with ((((hc | hc) | hc) | hc) | hc)
  · have hall : (codes "attachment; filename=\"").all (fun b => decide (b < 128)) = true := by
      decide
    rw [List.all_eq_true] at hall
    simpa using hall c hc
  · exact safe_filename_ascii name c hc
  · have hall : (codes "\"; filename*=UTF-8").all (fun b => decide (b < 128)) = true := by
      decide
    rw [List.all_eq_true] at hall
    simpa using hall c hc
  · simp at hc
    omega
  · exact encoded_ascii name h c hc

/-- Claim C9: for every display name (given by its UTF-8 bytes), the
emitted Content-Disposition value always carries both the ASCII fallback
filename and the extended percent-encoded parameter; percent-decoding the
extended parameter recovers the exact original name; every character of
the emitted header is ASCII, hence Latin-1 encodable, so the degrade
branch that would drop the extended parameter can never be forced; and
the fallback is the non-ASCII-stripped name, the fixed placeholder when
stripping leaves nothing but whitespace, and in every case non-empty. -/
theorem c9_disposition (name : List Nat) (h : ∀ b ∈ name, b < 256) :
    emitted_disposition name = extended_form name ∧
    percent_decode (encoded_filename name) = name ∧
    (∀ c ∈ emitted_disposition name, c < 128) ∧
    (safe_filename name = codes "file" ∨
      safe_filename name = name.filter (fun b => decide (b < 128))) ∧
    safe_filename name ≠ [] := by
  have henc : (encoded_filename name).all (fun b => decide (b < 128)) = true := by
    rw [List.all_eq_true]
    intro c hc
    simpa using encoded_ascii name h c hc
  have hcomp : composed_disposition name = extended_form name := by
    unfold composed_disposition
    rw [if_pos henc]
  have hext : ∀ c ∈ extended_form name, c < 128 := extended_form_ascii name h
  have hemit : emitted_disposition name = extended_form name := by
    unfold emitted_disposition
    rw [hcomp, if_pos]
    rw [List.all_eq_true]
    intro c hc
    have := hext c hc
    simp
    omega
  refine ⟨hemit, percent_decode_encoded name h, ?_, ?_, safe_filename_ne_nil name⟩
  · rw [hemit]
    exact hext
  · simp only [safe_filename, ascii_ignore]
    split_ifs
    · exact Or.inl rfl
    · exact Or.inr rfl

/-- Witness for C9: a Cyrillic-letter filename (UTF-8 bytes 208 164,
then .txt) round-trips through the percent-encoding and is emitted in the
extended form. -/
theorem c9_disposition_witness :
    percent_decode (encoded_filename [208, 164, 46, 116, 120, 116]) =
      [208, 164, 46, 116, 120, 116] ∧
    emitted_disposition [208, 164, 46, 116, 120, 116] =
      extended_form [208, 164, 46, 116, 120, 116] := by
  have h := c9_disposition [208, 164, 46, 116, 120, 116] (by decide)
  exact ⟨h.2.1, h.1⟩

end FileShare
